import Mathlib

/-!
Verification of the budget-guarded model client, hybrid matching engine and
RAG answering core of the Public-Incentives repository.

Shallow embedding conventions:
* Python floats are modelled as rationals; `pyInt` models the builtin
  `int(...)` truncation toward zero.
* Money amounts (EUR) and scores are rationals.
* Text is `String`; the tokenizer, the JSON parser and the upstream
  chat endpoint are explicit function parameters, as they are external
  collaborators of the code under test.
-/

namespace PubIncentives

/-- Python `int(x)` on a real value: truncation toward zero. -/
def pyInt (q : ℚ) : ℤ := if 0 ≤ q then ⌊q⌋ else ⌈q⌉

/-!
## Budget planner

`budget_guard.plan_output_tokens(tokens_in, price_in_per_million,
price_out_per_million, budget_eur, hard_cap_out)`:

    cost_in = (tokens_in / 1_000_000) * price_in_per_million
    remain = budget_eur - cost_in
    if remain <= 0: return 0, False
    tok_out_max = int((remain / price_out_per_million) * 1_000_000)
    tok_out = min(tok_out_max, hard_cap_out)
    return tok_out, True
-/

/-- Embeds `budget_guard.plan_output_tokens`. Prices are EUR per million
tokens. -/
def planOutputTokens (tokensIn : ℕ) (priceInPerMillion priceOutPerMillion : ℚ)
    (budgetEur : ℚ) (hardCapOut : ℤ) : ℤ × Bool :=
  let costIn : ℚ := (tokensIn : ℚ) / 1000000 * priceInPerMillion
  let remain : ℚ := budgetEur - costIn
  if remain ≤ 0 then (0, false)
  else
    let tokOutMax : ℤ := pyInt (remain / priceOutPerMillion * 1000000)
    (min tokOutMax hardCapOut, true)

/-- The input-side cost used by the planner, for readable statements. -/
def planInputCost (tokensIn : ℕ) (priceInPerMillion : ℚ) : ℚ :=
  (tokensIn : ℚ) / 1000000 * priceInPerMillion

/-!
## Context shrinking

`budget_guard.shrink_context(text, max_tokens, tokenizer)` first normalizes
whitespace with two regex substitutions,

    cleaned = re.sub(r"\s+\n", "\n", text)
    cleaned = re.sub(r"[ \t]{2,}", " ", cleaned)

then returns `cleaned` when it is within budget, and otherwise keeps an
estimated 70% of the budget from the head and 30% from the tail, joined by an
elision marker.  The regex scanners below mirror the leftmost greedy
backtracking semantics of `re.sub`; the character class of the Python pattern
is modelled over its ASCII members (the inputs of interest contain no exotic
Unicode whitespace).
-/

/-- ASCII members of the regex class matched by a Python `\s`. -/
def pythonWhitespace (c : Char) : Bool :=
  c == ' ' || c == '\t' || c == '\n' || c == '\r' ||
    c == Char.ofNat 11 || c == Char.ofNat 12

/-- For the pattern `\s+\n` anchored at the head of `l`: the greedy engine
matches the longest whitespace run that still leaves a final newline, so the
match ends at the LAST newline found at offset at least 1 inside the leading
whitespace run.  Returns that offset, or none when the pattern cannot match
at this position. -/
def lastNlInRun (l : List Char) : Option ℕ :=
  let run := l.takeWhile pythonWhitespace
  ((List.range run.length).filter fun p =>
    decide (1 ≤ p) && (run.get? p == some (Char.ofNat 10))).getLast?

/-- Fueled scanner for `re.sub(r"\s+\n", "\n", ·)`: at each position either
replace the leftmost match and continue after it, or emit one character.
Fuel equal to the list length is always enough, as each step consumes at
least one character. -/
def reSubWsNl : ℕ → List Char → List Char
  | 0, _ => []
  | _, [] => []
  | fuel + 1, c :: rest =>
    match lastNlInRun (c :: rest) with
    | some p => Char.ofNat 10 :: reSubWsNl fuel ((c :: rest).drop (p + 1))
    | none => c :: reSubWsNl fuel rest

/-- Fueled scanner for `re.sub(r"[ \t]{2,}", " ", ·)`: a maximal run of two
or more spaces/tabs collapses to a single space. -/
def reSubSpaces : ℕ → List Char → List Char
  | 0, _ => []
  | _, [] => []
  | fuel + 1, c :: rest =>
    let run := (c :: rest).takeWhile fun ch => ch == ' ' || ch == '\t'
    if 2 ≤ run.length then
      ' ' :: reSubSpaces fuel ((c :: rest).drop run.length)
    else c :: reSubSpaces fuel rest

/-- The whitespace-normalization prefix of `shrink_context`. -/
def normalizeWs (s : String) : String :=
  let l1 := reSubWsNl s.data.length s.data
  ⟨reSubSpaces l1.length l1⟩

/-- The elision marker inserted between the kept head and tail. -/
def elisionMarker : String := "\n\n[...contexto reduzido...]\n\n"

/-- The head/tail character counts computed by `shrink_context` in its
over-budget branch (`0.7` is the rational value of the source constant):

    head_tokens = int(keep_tokens * 0.7); tail_tokens = keep - head_tokens
    char_per_tok = len(cleaned) / current_tokens
    head_chars = int(head_tokens * char_per_tok)
    tail_chars = int(tail_tokens * char_per_tok)
-/
def shrinkSplit (lengthChars currentTokens maxTokens : ℕ) : ℕ × ℕ :=
  let headTokens : ℤ := pyInt ((maxTokens : ℚ) * (7 / 10))
  let tailTokens : ℤ := (maxTokens : ℤ) - headTokens
  let charPerTok : ℚ := (lengthChars : ℚ) / (currentTokens : ℚ)
  let headChars : ℤ := pyInt ((headTokens : ℚ) * charPerTok)
  let tailChars : ℤ := pyInt ((tailTokens : ℚ) * charPerTok)
  (headChars.toNat, tailChars.toNat)

/-- Python tail slice `s[-t:]`; for `t = 0` this is the WHOLE string, as
`s[-0:]` is `s[0:]`. -/
def pyTailSlice (t : ℕ) (s : String) : String :=
  if t = 0 then s else ⟨s.data.drop (s.data.length - t)⟩

/-- Embeds `budget_guard.shrink_context`. -/
def shrinkContext (text : String) (maxTokens : ℕ) (tokenizer : String → ℕ) :
    String :=
  let cleaned := normalizeWs text
  let currentTokens := tokenizer cleaned
  if currentTokens ≤ maxTokens then cleaned
  else
    let hc := shrinkSplit cleaned.data.length currentTokens maxTokens
    let head : String := ⟨cleaned.data.take hc.1⟩
    let tail : String := pyTailSlice hc.2 cleaned
    head ++ elisionMarker ++ tail

/-!
## Managed OpenAI client

`openai_client.ManagedOpenAIClient.chat_completion` composes the response
cache (`openai_cache.OpenAICache`), the budget planner and the context
shrinker.  The SQLite cache is modelled as an association list keyed by
`(model, prompt, params)` — the source keys rows by a SHA-256 of exactly
that triple, and the embedding treats the digest as injective.  The
tokenizer (tiktoken), the JSON parser and the upstream endpoint are
function-valued configuration fields.  Wall-clock columns
(`created_at`, `last_accessed`, ledger dates) are not modelled; the access
counter is.
-/

/-- One chat message, a dict with keys `role` and `content`. -/
structure Msg where
  role : String
  content : String
deriving DecidableEq, Repr

/-- Embeds `ManagedOpenAIClient._messages_to_text`. -/
def messagesToText (ms : List Msg) : String :=
  String.intercalate "\n" (ms.map fun m => m.role ++ ": " ++ m.content)

/-- The `params` dict used for the cache key: `temperature`, `max_tokens`,
`response_format` plus any extra keyword arguments (as string pairs). -/
structure ChatParams where
  temperature : ℚ
  maxTokens : Option ℤ
  responseFormat : Option String
  extra : List (String × String)
deriving DecidableEq

/-- A row of the `llm_cache` table (timestamps not modelled). -/
structure CacheEntry where
  response : String
  responseJson : Option String
  inputTokens : ℕ
  outputTokens : ℕ
  costEur : ℚ
  accessCount : ℕ
deriving DecidableEq

/-- The content-address of a completion: model, canonical prompt, params. -/
abbrev CacheKey := String × String × ChatParams

/-- A row of the `cost_tracking` ledger (the date column is not modelled). -/
structure LedgerRow where
  model : String
  operation : String
  inputTokens : ℕ
  outputTokens : ℕ
  costEur : ℚ
  fromCache : Bool
deriving DecidableEq

/-- The persistent stores owned by the client: the completion cache and the
cost ledger of `OpenAICache`, plus the event list recorded through
`RealTimeCostTracker.record_request` (whose by-date aggregation is not
modelled; the recorded events are). -/
structure ClientState where
  cache : List (CacheKey × CacheEntry)
  ledger : List LedgerRow
  tracker : List LedgerRow
deriving DecidableEq

/-- What the upstream chat endpoint returns: choice text and usage. -/
structure UpstreamResp where
  text : String
  promptTokens : ℕ
  completionTokens : ℕ
  totalTokens : ℕ
deriving DecidableEq

/-- The arguments of one `client.chat.completions.create(...)` call. -/
structure UpstreamCall where
  model : String
  messages : List Msg
  temperature : ℚ
  maxTokens : ℤ
  responseFormat : Option String
  extra : List (String × String)
deriving DecidableEq

/-- Construction-time collaborators of the client: the per-request cap, the
cached gpt-4o-mini and embedding prices (EUR per million tokens), the
tokenizer, the JSON parser and the upstream endpoint. -/
structure ClientCfg where
  maxPerRequestEur : ℚ
  chatPriceIn : ℚ
  chatPriceOut : ℚ
  embeddingPrice : ℚ
  countTokens : String → ℕ
  parseJson : String → Option String
  upstream : UpstreamCall → Except String UpstreamResp

/-- Python `str.lower()` over the ASCII range. -/
def pyLower (s : String) : String := ⟨s.data.map Char.toLower⟩

/-- Boolean infix test, Python `needle in hay` on lists of characters. -/
def isInfixB (p : List Char) : List Char → Bool
  | [] => p.isPrefixOf ([] : List Char)
  | c :: rest => p.isPrefixOf (c :: rest) || isInfixB p rest

/-- Python `needle in hay` for strings. -/
def containsSub (needle hay : String) : Bool := isInfixB needle.data hay.data

/-- Embeds `budget_guard.estimate_cost`, with the prices the source would
read from its price cache supplied by `cfg`:

    if "embed" in model.lower(): tokens_in/1e6 * embedding_per_million
    else: tokens_in/1e6 * input_per_million + tokens_out/1e6 * output_per_million
-/
def estimateCost (cfg : ClientCfg) (model : String) (tokensIn tokensOut : ℤ) :
    ℚ :=
  if containsSub "embed" (pyLower model) then
    (tokensIn : ℚ) / 1000000 * cfg.embeddingPrice
  else
    (tokensIn : ℚ) / 1000000 * cfg.chatPriceIn +
      (tokensOut : ℚ) / 1000000 * cfg.chatPriceOut

/-- SELECT by cache key (first match). -/
def mapFind : List (CacheKey × CacheEntry) → CacheKey → Option CacheEntry
  | [], _ => none
  | (k2, e) :: rest, k => if k2 = k then some e else mapFind rest k

/-- The `UPDATE ... access_count = access_count + 1` a cache hit performs. -/
def bumpAccess : List (CacheKey × CacheEntry) → CacheKey →
    List (CacheKey × CacheEntry)
  | [], _ => []
  | (k2, e) :: rest, k =>
    if k2 = k then (k2, { e with accessCount := e.accessCount + 1 }) :: rest
    else (k2, e) :: bumpAccess rest k

/-- `INSERT OR REPLACE` keyed by the cache key. -/
def mapInsert : List (CacheKey × CacheEntry) → CacheKey → CacheEntry →
    List (CacheKey × CacheEntry)
  | [], k, e => [(k, e)]
  | (k2, e2) :: rest, k, e =>
    if k2 = k then (k, e) :: rest else (k2, e2) :: mapInsert rest k e

/-- The dict `chat_completion` returns.  A cache hit carries
`original_cost_eur`; a fresh call does not. -/
structure ChatOk where
  response : String
  responseJson : Option String
  promptTokens : ℕ
  completionTokens : ℕ
  totalTokens : ℕ
  costEur : ℚ
  originalCostEur : Option ℚ
  fromCache : Bool
deriving DecidableEq

/-- The exceptions `chat_completion` can surface: `BudgetExceededError`,
or a propagated transport/provider error. -/
inductive ChatErr where
  | budgetExceeded : ChatErr
  | upstreamFailure : String → ChatErr
deriving DecidableEq

/-- Outcome of resolving `max_tokens`: the (possibly mutated) messages and,
unless `BudgetExceededError` is to be raised, the final prompt text, input
token count and output-token cap. -/
structure PlanOut where
  messages : List Msg
  plan : Option (String × ℕ × ℤ)
deriving DecidableEq

/-- The shrink loop of `chat_completion`:

    for i in range(len(messages) - 1, -1, -1):
        if messages[i]["role"] == "user":
            messages[i]["content"] = shrink_context(..., max_tokens=1000, ...)
            recompute prompt_text, tokens_in, plan
            if fits and max_tokens_budget > 0: break
    else:
        raise BudgetExceededError(...)

`shrinkGo cfg n ms` processes indices `n-1, n-2, ..., 0`; `plan = none`
models falling through to the raise. -/
def shrinkGo (cfg : ClientCfg) : ℕ → List Msg → PlanOut
  | 0, ms => ⟨ms, none⟩
  | n + 1, ms =>
    match ms.get? n with
    | none => shrinkGo cfg n ms
    | some m =>
      if m.role = "user" then
        let ms2 := ms.set n ⟨m.role, shrinkContext m.content 1000 cfg.countTokens⟩
        let pt := messagesToText ms2
        let ti := cfg.countTokens pt
        let plan := planOutputTokens ti cfg.chatPriceIn cfg.chatPriceOut
          cfg.maxPerRequestEur 800
        if plan.2 = true ∧ 0 < plan.1 then ⟨ms2, some (pt, ti, plan.1)⟩
        else shrinkGo cfg n ms2
      else shrinkGo cfg n ms

/-- The `max_tokens` resolution of `chat_completion`: when the caller gave a
cap, check its projected cost against the per-request budget; otherwise run
the planner and, if the request does not fit, the shrink loop. -/
def planPhase (cfg : ClientCfg) (ms : List Msg) (model : String)
    (maxTokens? : Option ℤ) (promptText : String) (tokensIn : ℕ) : PlanOut :=
  match maxTokens? with
  | some mt =>
    if estimateCost cfg model tokensIn mt > cfg.maxPerRequestEur then ⟨ms, none⟩
    else ⟨ms, some (promptText, tokensIn, mt)⟩
  | none =>
    let plan := planOutputTokens tokensIn cfg.chatPriceIn cfg.chatPriceOut
      cfg.maxPerRequestEur 800
    if plan.2 = true ∧ plan.1 ≠ 0 then ⟨ms, some (promptText, tokensIn, plan.1)⟩
    else shrinkGo cfg ms.length ms

/-- Everything observable about one `chat_completion` call: its result, the
final state of the caller-owned messages list (the source mutates it in
place), the client stores, and the upstream requests performed. -/
structure ChatOut where
  result : Except ChatErr ChatOk
  messages : List Msg
  state : ClientState
  upstreamCalls : List UpstreamCall

/-- Embeds `ManagedOpenAIClient.chat_completion`.  Protocol: build the params
dict and canonical prompt; return a cache hit with a zero-cost ledger row;
otherwise resolve `max_tokens` (raising `BudgetExceededError` when nothing
fits), perform the upstream call, price the actual usage, insert the cache
row keyed by the FINAL prompt text, and append `from_cache=false` rows to the
ledger and the real-time tracker. -/
def chatCompletion (cfg : ClientCfg) (st : ClientState) (messages : List Msg)
    (model : String) (temperature : ℚ) (maxTokens? : Option ℤ)
    (responseFormat : Option String) (extra : List (String × String)) :
    ChatOut :=
  let params : ChatParams := ⟨temperature, maxTokens?, responseFormat, extra⟩
  let promptText := messagesToText messages
  match mapFind st.cache (model, promptText, params) with
  | some entry =>
    let row : LedgerRow :=
      ⟨model, "chat_completion", entry.inputTokens, entry.outputTokens, 0, true⟩
    { result := .ok ⟨entry.response, entry.responseJson, entry.inputTokens,
        entry.outputTokens, entry.inputTokens + entry.outputTokens, 0,
        some entry.costEur, true⟩
      messages := messages
      state := ⟨bumpAccess st.cache (model, promptText, params),
        st.ledger ++ [row], st.tracker⟩
      upstreamCalls := [] }
  | none =>
    let tokensIn := cfg.countTokens promptText
    let po := planPhase cfg messages model maxTokens? promptText tokensIn
    match po.plan with
    | none =>
      { result := .error .budgetExceeded
        messages := po.messages
        state := st
        upstreamCalls := [] }
    | some (ptF, _tiF, mtF) =>
      let call : UpstreamCall :=
        ⟨model, po.messages, temperature, mtF, responseFormat, extra⟩
      match cfg.upstream call with
      | .error e =>
        { result := .error (.upstreamFailure e)
          messages := po.messages
          state := st
          upstreamCalls := [call] }
      | .ok resp =>
        let rj := if responseFormat = some "json_object" then
          cfg.parseJson resp.text else none
        let actualCost :=
          estimateCost cfg model resp.promptTokens resp.completionTokens
        let entry : CacheEntry :=
          ⟨resp.text, rj, resp.promptTokens, resp.completionTokens, actualCost, 1⟩
        let row : LedgerRow :=
          ⟨model, "chat_completion", resp.promptTokens, resp.completionTokens,
            actualCost, false⟩
        { result := .ok ⟨resp.text, rj, resp.promptTokens,
            resp.completionTokens, resp.totalTokens, actualCost, none, false⟩
          messages := po.messages
          state := ⟨mapInsert st.cache (model, ptF, params) entry,
            st.ledger ++ [row], st.tracker ++ [row]⟩
          upstreamCalls := [call] }

/-- Relation between the caller-owned messages list before and after a
`chat_completion` call: same length, roles preserved, and each content either
untouched or — for a user message — overwritten with its shrunken text. -/
def MsgsShrunk (cfg : ClientCfg) (ms0 ms1 : List Msg) : Prop :=
  ms1.length = ms0.length ∧
  ∀ i m0, ms0.get? i = some m0 → ∃ m1, ms1.get? i = some m1 ∧
    m1.role = m0.role ∧
    (m1.content = m0.content ∨
      (m0.role = "user" ∧
        m1.content = shrinkContext m0.content 1000 cfg.countTokens))

/-!
## Document cost tracker

`document_cost_tracker.DocumentCostTracker`: a process-local map from
document tags to cumulative EUR spend, with a fixed 0.30 EUR cap.
-/

/-- Python `dict.get(key, default)` over an association list. -/
def pyGet {α : Type} : List (String × α) → String → α → α
  | [], _, d => d
  | (k2, v) :: rest, k, d => if k2 = k then v else pyGet rest k d

/-- Python `dict[key] = value` over an association list. -/
def pySet {α : Type} : List (String × α) → String → α → List (String × α)
  | [], k, v => [(k, v)]
  | (k2, v2) :: rest, k, v =>
    if k2 = k then (k, v) :: rest else (k2, v2) :: pySet rest k v

/-- `DocumentCostTracker.max_cost_per_document`. -/
def maxCostPerDocument : ℚ := 3/10

/-- Embeds `DocumentCostTracker.can_spend`: true iff the tag's current spend
plus the estimate does not exceed the cap. -/
def canSpend (documentCosts : List (String × ℚ)) (documentId : String)
    (estimatedCost : ℚ) : Bool :=
  let currentCost := pyGet documentCosts documentId 0
  let totalCost := currentCost + estimatedCost
  if totalCost > maxCostPerDocument then false else true

/-- Embeds `DocumentCostTracker.record_cost`. -/
def recordCost (documentCosts : List (String × ℚ)) (documentId : String)
    (actualCost : ℚ) : List (String × ℚ) :=
  pySet documentCosts documentId (pyGet documentCosts documentId 0 + actualCost)

/-!
## Matching engine

`matching_service.MatchingService`: deterministic penalty filters, weighted
fusion and top-k selection of `find_matches`.  The pgvector retrieval is
replaced by an explicit candidate list `(company, vector_similarity)`; the
BM25 scorer (whose final sigmoid is transcendental) and the LLM re-rank
result (produced through the managed client) enter as function parameters.
-/

/-- The keys of an incentive `ai_description` record consumed by the
deterministic filters (`company_size`, `caes`, `geographic_location`); an
absent key is the empty list / empty string, matching the falsy check of the
source.  The further keys feed only the BM25 query and the re-rank prompt,
which are parameters here. -/
structure AiDescription where
  companySize : List String
  caes : List String
  geographicLocation : String
deriving DecidableEq

/-- The incentive fields the embedded pipeline reads. -/
structure Incentive where
  incentiveId : String
  aiDescription : Option AiDescription
deriving DecidableEq

/-- The company fields the embedded pipeline reads. -/
structure Company where
  companyId : String
  name : String
  caeCodes : Option (List String)
  size : Option String
  district : Option String
deriving DecidableEq

/-- Size rule of `_apply_deterministic_filters`: the incentive declares
allowed sizes, `não aplicável` is not among them (lower-cased), and the
company has a size that is not in the list. -/
def sizeRuleFires (inc : Incentive) (c : Company) : Bool :=
  match inc.aiDescription with
  | none => false
  | some ad =>
    if ad.companySize.isEmpty then false
    else if (ad.companySize.map pyLower).contains "não aplicável" then false
    else match c.size with
      | none => false
      | some s => if s = "" then false else ¬ ad.companySize.contains s

/-- CAE rule: both sides declare sector codes and the sets do not
intersect. -/
def caeRuleFires (inc : Incentive) (c : Company) : Bool :=
  let caesI := match inc.aiDescription with
    | none => []
    | some ad => ad.caes
  let caesC := c.caeCodes.getD []
  if caesI.isEmpty then false
  else if caesC.isEmpty then false
  else ! caesI.any fun x => caesC.contains x

/-- The geographic match chain of the source, on lower-cased inputs:
district substring, country-wide terms, and the regional aliases. -/
def geoMatch (geo district : String) : Bool :=
  containsSub district geo ||
  containsSub "portugal" geo || containsSub "nacional" geo ||
  containsSub "todo o país" geo || containsSub "todas as regiões" geo ||
  (containsSub "algarve" geo && district == "faro") ||
  (containsSub "centro" geo &&
    (district == "coimbra" || district == "leiria" || district == "aveiro")) ||
  (containsSub "norte" geo &&
    (district == "porto" || district == "braga" || district == "vila real")) ||
  (containsSub "lisboa" geo &&
    (district == "lisboa" || district == "setúbal"))

/-- Region rule: the incentive has a scope string, the company a district,
and no geographic match is found. -/
def geoRuleFires (inc : Incentive) (c : Company) : Bool :=
  let geo := pyLower (match inc.aiDescription with
    | none => ""
    | some ad => ad.geographicLocation)
  match c.district with
  | none => false
  | some d0 =>
    if geo = "" then false
    else if d0 = "" then false
    else ! geoMatch geo (pyLower d0)

/-- Embeds `MatchingService._apply_deterministic_filters`: starts from 1.0
and multiplies the penalty of each fired rule (size 0.8, cae 0.7, geo 0.9),
recording fired rules in order. -/
def applyDeterministicFilters (inc : Incentive) (c : Company) :
    ℚ × List (String × ℚ) :=
  let p1 : ℚ := if sizeRuleFires inc c then 1 * (8/10) else 1
  let a1 : List (String × ℚ) :=
    if sizeRuleFires inc c then [("size", 8/10)] else []
  let p2 : ℚ := if caeRuleFires inc c then p1 * (7/10) else p1
  let a2 : List (String × ℚ) :=
    if caeRuleFires inc c then a1 ++ [("cae", 7/10)] else a1
  let p3 : ℚ := if geoRuleFires inc c then p2 * (9/10) else p2
  let a3 : List (String × ℚ) :=
    if geoRuleFires inc c then a2 ++ [("geo", 9/10)] else a2
  (p3, a3)

/-- The scoring weights of `MatchingService.__init__` (defaults
vector 0.50, bm25 0.20, llm 0.30). -/
structure MatchWeights where
  vector : ℚ
  bm25 : ℚ
  llm : ℚ
deriving DecidableEq

/-- The default weights of the service. -/
def defaultWeights : MatchWeights := ⟨1/2, 1/5, 3/10⟩

/-- One candidate after step 3 of `find_matches`: company, component scores,
penalty data and the preliminary fused score. -/
structure ScoredCandidate where
  company : Company
  vectorScore : ℚ
  bm25Score : ℚ
  penalty : ℚ
  penaltiesApplied : List (String × ℚ)
  prelimScore : ℚ
deriving DecidableEq

/-- Step 3 of `find_matches`: per-candidate deterministic penalty, BM25
score and preliminary score `(w_v * v + w_b * b) * penalty`. -/
def scoreCandidates (w : MatchWeights) (inc : Incentive)
    (bm25 : Company → ℚ) (candidates : List (Company × ℚ)) :
    List ScoredCandidate :=
  candidates.map fun cv =>
    let pr := applyDeterministicFilters inc cv.1
    let b := bm25 cv.1
    ⟨cv.1, cv.2, b, pr.1, pr.2, (w.vector * cv.2 + w.bm25 * b) * pr.1⟩

/-- Python `list.sort(key=..., reverse=True)`: a stable sort by key
descending. -/
def pySortDesc {α : Type} (key : α → ℚ) (l : List α) : List α :=
  List.insertionSort (fun x y => key y ≤ key x) l

/-- One element of the list `find_matches` returns (the explanation string,
a presentation join of the re-rank reason and the penalties summary, is not
modelled; the `component_scores` dict is the four named score fields). -/
structure MatchResult where
  companyId : String
  companyName : String
  score : ℚ
  penaltiesApplied : List (String × ℚ)
  vectorScore : ℚ
  bm25Score : ℚ
  llmScore : ℚ
  penalty : ℚ
deriving DecidableEq

/-- Embeds the ranking pipeline of `MatchingService.find_matches` from the
retrieved candidate pool on: score all candidates, sort by preliminary
score, re-rank the top 20 through the LLM (the resulting
`company_id -> (score, reason)` mapping is the parameter `llmScores`,
empty when `use_llm` is false or the call failed), fuse
`(w_v*v + w_b*b + w_l*l) * penalty` over the first `top_k` candidates with
a 0.5 default for missing ids, and sort the final list by score. -/
def findMatches (w : MatchWeights) (inc : Incentive) (bm25 : Company → ℚ)
    (candidates : List (Company × ℚ)) (topK : ℕ) (useLlm : Bool)
    (llmScores : List (String × (ℚ × String))) : List MatchResult :=
  let sortedC := pySortDesc (fun sc => sc.prelimScore)
    (scoreCandidates w inc bm25 candidates)
  let llmEff := if useLlm ∧ sortedC ≠ [] then llmScores else []
  let finals := (sortedC.take topK).map fun sc =>
    let ls := pyGet llmEff sc.company.companyId (1/2, "")
    { companyId := sc.company.companyId
      companyName := sc.company.name
      score := (w.vector * sc.vectorScore + w.bm25 * sc.bm25Score +
        (if useLlm then w.llm * ls.1 else 0)) * sc.penalty
      penaltiesApplied := sc.penaltiesApplied
      vectorScore := sc.vectorScore
      bm25Score := sc.bm25Score
      llmScore := ls.1
      penalty := sc.penalty }
  pySortDesc (fun r => r.score) finals

/-!
## RAG answer generation

`rag_service.RAGService._generate_answer`: refusal on empty retrieval,
otherwise an answer from the chat client with a confidence derived from the
mean similarity of the retrieved documents.
-/

/-- One retrieved document as `_retrieve_relevant_documents` shapes it
(metadata dict not modelled). -/
structure RagDoc where
  type : String
  id : String
  title : String
  content : String
  similarity : ℚ
deriving DecidableEq

/-- The canonical refusal phrase of the RAG prompt and empty-retrieval
path. -/
def REFUSAL_PHRASE : String :=
  "Não tenho informação suficiente para responder a esta pergunta."

/-- The answer returned when generation fails. -/
def GENERATION_ERROR : String := "Erro ao gerar resposta."

/-- String-valued key lookup on the dict `chat_completion` returns.  The
return statement of the source builds exactly the keys `response`,
`response_json`, `usage`, `cost_eur`, `from_cache` (plus
`original_cost_eur` on a cache hit); the string-valued ones are `response`
and `response_json`, and in particular there is NO `content` key. -/
def chatResultGet (r : ChatOk) (k : String) : Option String :=
  if k = "response" then some r.response
  else if k = "response_json" then r.responseJson
  else none

/-- Python `str.strip()` over ASCII whitespace. -/
def pyStrip (s : String) : String :=
  ⟨((s.data.dropWhile pythonWhitespace).reverse.dropWhile
    pythonWhitespace).reverse⟩

/-- Embeds `RAGService._generate_answer`, with the chat call outcome as a
parameter (`1.2` is modelled as the rational `6/5`):

    if not documents: return refusal, 0.0
    response = chat_completion(...)            # may raise
    if not response or not response.get('content'): return error, 0.0
    answer = response['content'].strip()
    confidence = min(mean(similarities) * 1.2, 1.0)
-/
def generateAnswer (docs : List RagDoc)
    (chatResult : Except String ChatOk) : String × ℚ :=
  if docs.isEmpty then (REFUSAL_PHRASE, 0)
  else
    match chatResult with
    | .error _ => (GENERATION_ERROR, 0)
    | .ok r =>
      match chatResultGet r "content" with
      | none => (GENERATION_ERROR, 0)
      | some c =>
        if c = "" then (GENERATION_ERROR, 0)
        else
          let avgSimilarity := (docs.map fun d => d.similarity).sum /
            (docs.length : ℚ)
          (pyStrip c, min (avgSimilarity * (6/5)) 1)

/-!
## Concrete fixtures

Small configurations and states used to evaluate the embedded operations on
concrete inputs (character-count tokenizer, constant upstream endpoint).
-/

/-- A configuration whose prices are so high that nothing fits the cap. -/
def cfgOver : ClientCfg :=
  ⟨3/10, 1000000, 1000000, 0, fun s => s.length, fun _ => none,
    fun _ => .error "unreachable"⟩

/-- A configuration under which a short prompt fits and the upstream endpoint
answers with a fixed completion. -/
def cfgFit : ClientCfg :=
  ⟨3/10, 0, 300000, 0, fun s => s.length, fun _ => none,
    fun _ => .ok ⟨"olá", 8, 3, 11⟩⟩

/-- Fresh client stores: empty cache, ledger and tracker. -/
def stEmpty : ClientState := ⟨[], [], []⟩

/-- A one-message conversation. -/
def msgsHi : List Msg := [⟨"user", "hi"⟩]

/-- An incentive without a structured-attributes record: no filter fires. -/
def incPlain : Incentive := ⟨"inc1", none⟩

/-- An incentive declaring sizes, sectors and a scope. -/
def incFull : Incentive :=
  ⟨"inc2", some ⟨["sme"], ["41", "42", "43"], "Lisboa, Porto"⟩⟩

/-- A company matched by `incPlain` with penalty 1. -/
def compA : Company := ⟨"A", "Empresa A", none, none, none⟩

/-- A large company in sector 41, district Lisboa. -/
def compB : Company := ⟨"B", "Empresa B", some ["41"], some "large", some "Lisboa"⟩

/-- One retrieved document with similarity 0.8. -/
def ragDocA : RagDoc := ⟨"incentive", "i1", "Incentivo X", "Texto", 4/5⟩

/-- The dict shape an upstream chat success yields through the managed
client. -/
def chatOkRag : ChatOk :=
  ⟨"Os incentivos disponíveis são estes.", none, 100, 50, 150, 1/1000, none,
    false⟩

/-! ## Theorems -/

theorem pyInt_of_nonneg (q : ℚ) (h : 0 ≤ q) : pyInt q = ⌊q⌋ := by
  simp [pyInt, h]

theorem planOutputTokens_eq (tokensIn : ℕ) (pIn pOut budget : ℚ) (cap : ℤ) :
    planOutputTokens tokensIn pIn pOut budget cap =
      if budget - planInputCost tokensIn pIn ≤ 0 then (0, false)
      else (min (pyInt ((budget - planInputCost tokensIn pIn) / pOut * 1000000)) cap,
            true) := by
  rfl

/-- C4, counterexample. At `tokens_in = 0`, `price_in = 0`,
`price_out = 1_000_000`, `budget = 1/2`, `hard_cap = 800` the remaining
budget buys only half an output token, which `int()` rounds down to 0, yet
the function returns `fits = True` — the claim demands `(0, false)` whenever
the output allowance rounds to 0. -/
theorem C4_plan_counterexample :
    planOutputTokens 0 0 1000000 (1/2) 800 = (0, true) ∧
      ((0 : ℤ), true) ≠ ((0 : ℤ), false) := by
  constructor
  · have hnot : ¬ ((1 : ℚ)/2 - planInputCost 0 0 ≤ 0) := by
      norm_num [planInputCost]
    rw [planOutputTokens_eq, if_neg hnot]
    have hval : ((1 : ℚ)/2 - planInputCost 0 0) / 1000000 * 1000000 = 1/2 := by
      norm_num [planInputCost]
    rw [hval, pyInt_of_nonneg _ (by norm_num)]
    norm_num
  · simp

/-- C4 (amended): if `cost_in ≥ budget_eur` the planner returns `(0, false)`;
otherwise it returns `(min hard_cap_out ⌊(budget − cost_in)/price_out · 10^6⌋,
true)` — the `fits` flag is `true` exactly when `cost_in < budget_eur`, even
when the output-token allowance is 0. -/
theorem C4_plan_output_tokens (tokensIn : ℕ) (pIn pOut budget : ℚ) (cap : ℤ)
    (hOut : 0 < pOut) :
    (planInputCost tokensIn pIn ≥ budget →
       planOutputTokens tokensIn pIn pOut budget cap = (0, false)) ∧
    (planInputCost tokensIn pIn < budget →
       planOutputTokens tokensIn pIn pOut budget cap =
         (min ⌊(budget - planInputCost tokensIn pIn) / pOut * 1000000⌋ cap,
          true)) ∧
    ((planOutputTokens tokensIn pIn pOut budget cap).2 = true ↔
       planInputCost tokensIn pIn < budget) := by
  refine ⟨?_, ?_, ?_⟩
  · intro hge
    have h : budget - planInputCost tokensIn pIn ≤ 0 := by linarith
    rw [planOutputTokens_eq, if_pos h]
  · intro hlt
    have hnot : ¬ budget - planInputCost tokensIn pIn ≤ 0 := by linarith
    have hnum : 0 ≤ budget - planInputCost tokensIn pIn := by linarith
    have hq : 0 ≤ (budget - planInputCost tokensIn pIn) / pOut * 1000000 := by
      positivity
    rw [planOutputTokens_eq, if_neg hnot, pyInt_of_nonneg _ hq]
  · by_cases h : budget - planInputCost tokensIn pIn ≤ 0
    · rw [planOutputTokens_eq, if_pos h]
      exact iff_of_false (by simp) (fun hlt => by linarith)
    · rw [planOutputTokens_eq, if_neg h]
      push_neg at h
      exact iff_of_true rfl (by linarith)

/-- Witness for C4: at `tokens_in = 100`, prices `0.15/0.60` EUR per million
and budget `0.30` EUR, the input cost is below budget and the planner grants
a positive allowance with `fits = true`. -/
theorem C4_plan_output_tokens_witness :
    (0 : ℚ) < 6/10 ∧
      (planOutputTokens 100 (15/100) (6/10) (3/10) 800).2 = true ∧
      planInputCost 100 (15/100) < 3/10 :=
  ⟨by norm_num,
   ((C4_plan_output_tokens 100 (15/100) (6/10) (3/10) 800 (by norm_num)).2.2).mpr
     (by norm_num [planInputCost]),
   by norm_num [planInputCost]⟩

/-- C5, counterexample. With the character-count tokenizer, the four-character
text `aaaa` and budget 2, the result is one head character, the 29-character
elision marker and one tail character: 31 tokens, far above the budget of 2.
So `tokenizer(shrink(t, n)) ≤ n` does not hold for every tokenizer. -/
theorem C5_shrink_counterexample :
    (fun s : String => s.length)
        (shrinkContext "aaaa" 2 (fun s => s.length)) = 31 ∧
      ¬ (31 ≤ 2) := by
  have hnorm : normalizeWs "aaaa" = "aaaa" := by decide
  have hsplit : shrinkSplit 4 4 2 = (1, 1) := by
    norm_num [shrinkSplit, pyInt]
  have h1 : ("aaaa" : String).data.length = 4 := rfl
  have h2 : ("aaaa" : String).length = 4 := rfl
  have hres : shrinkContext "aaaa" 2 (fun s => s.length) =
      "a" ++ elisionMarker ++ "a" := by
    simp only [shrinkContext, hnorm, h1, h2, hsplit]
    decide
  rw [hres]
  constructor
  · decide
  · decide

/-- C5 (amended): when the whitespace-normalized input is already within the
token budget, `shrink_context` returns it verbatim (so the token bound holds
there); in the over-budget case the result is an estimated head slice, the
elision marker and an estimated tail slice, and its token count is NOT
bounded by the budget in general. -/
theorem C5_shrink_context (text : String) (maxTokens : ℕ)
    (tokenizer : String → ℕ)
    (hUnder : tokenizer (normalizeWs text) ≤ maxTokens) :
    shrinkContext text maxTokens tokenizer = normalizeWs text ∧
      tokenizer (shrinkContext text maxTokens tokenizer) ≤ maxTokens := by
  have h : shrinkContext text maxTokens tokenizer = normalizeWs text := by
    simp only [shrinkContext, if_pos hUnder]
  exact ⟨h, h ▸ hUnder⟩

/-- Witness for C5: the text `ab` under budget 5 with the character-count
tokenizer is returned verbatim. -/
theorem C5_shrink_context_witness :
    shrinkContext "ab" 5 (fun s => s.length) = normalizeWs "ab" ∧
      (fun s : String => s.length)
        (shrinkContext "ab" 5 (fun s => s.length)) ≤ 5 :=
  C5_shrink_context "ab" 5 (fun s => s.length) (by decide)

theorem mapFind_mapInsert (m : List (CacheKey × CacheEntry)) (k : CacheKey)
    (e : CacheEntry) : mapFind (mapInsert m k e) k = some e := by
  induction m with
  | nil => simp [mapInsert, mapFind]
  | cons kv rest ih =>
    obtain ⟨k2, e2⟩ := kv
    by_cases h : k2 = k
    · simp [mapInsert, h, mapFind]
    · simp [mapInsert, h, mapFind, ih]

theorem planOutputTokens_cost_le (ti : ℕ) (pIn pOut budget : ℚ) (cap mt : ℤ)
    (hOut : 0 < pOut)
    (h : planOutputTokens ti pIn pOut budget cap = (mt, true)) :
    planInputCost ti pIn + (mt : ℚ) / 1000000 * pOut ≤ budget := by
  rw [planOutputTokens_eq] at h
  by_cases hc : budget - planInputCost ti pIn ≤ 0
  · rw [if_pos hc] at h
    simp [Prod.ext_iff] at h
  · rw [if_neg hc] at h
    push_neg at hc
    have hnum : 0 ≤ budget - planInputCost ti pIn := le_of_lt hc
    have hq : 0 ≤ (budget - planInputCost ti pIn) / pOut * 1000000 := by
      positivity
    have hmt : mt = min (pyInt ((budget - planInputCost ti pIn) / pOut * 1000000)) cap := by
      have := congrArg Prod.fst h
      simpa using this.symm
    rw [pyInt_of_nonneg _ hq] at hmt
    have h1 : (mt : ℚ) ≤ (budget - planInputCost ti pIn) / pOut * 1000000 := by
      rw [hmt]
      calc ((min ⌊(budget - planInputCost ti pIn) / pOut * 1000000⌋ cap : ℤ) : ℚ)
          ≤ ((⌊(budget - planInputCost ti pIn) / pOut * 1000000⌋ : ℤ) : ℚ) := by
            exact_mod_cast min_le_left _ _
        _ ≤ (budget - planInputCost ti pIn) / pOut * 1000000 := Int.floor_le _
    have hkey : ((budget - planInputCost ti pIn) / pOut * 1000000) / 1000000 * pOut
        = budget - planInputCost ti pIn := by
      field_simp
      ring
    have h2 : (mt : ℚ) / 1000000 * pOut ≤ budget - planInputCost ti pIn := by
      calc (mt : ℚ) / 1000000 * pOut
          ≤ ((budget - planInputCost ti pIn) / pOut * 1000000) / 1000000 * pOut := by
            gcongr
        _ = budget - planInputCost ti pIn := hkey
    linarith

theorem shrinkGo_spec (cfg : ClientCfg) :
    ∀ (n : ℕ) (ms : List Msg) (po : PlanOut), shrinkGo cfg n ms = po →
      ∀ pt ti mt, po.plan = some (pt, ti, mt) →
      pt = messagesToText po.messages ∧ ti = cfg.countTokens pt ∧
      planOutputTokens ti cfg.chatPriceIn cfg.chatPriceOut
        cfg.maxPerRequestEur 800 = (mt, true) ∧ 0 < mt := by
  intro n
  induction n with
  | zero =>
    intro ms po hpo pt ti mt hplan
    simp only [shrinkGo] at hpo
    rw [← hpo] at hplan
    simp at hplan
  | succ n ih =>
    intro ms po hpo pt ti mt hplan
    simp only [shrinkGo] at hpo
    split at hpo
    · exact ih ms po hpo pt ti mt hplan
    · rename_i m hget
      split at hpo
      · split at hpo
        · rename_i hrole hcond
          rw [← hpo] at hplan
          simp only [PlanOut.plan, Option.some.injEq, Prod.mk.injEq] at hplan
          obtain ⟨hpt, hti, hmt⟩ := hplan
          rw [← hpo]
          refine ⟨hpt.symm, ?_, ?_, ?_⟩
          · rw [← hti, ← hpt]
          · rw [← hti, ← hmt]
            exact Prod.ext rfl hcond.1
          · rw [← hmt]; exact hcond.2
        · exact ih _ po hpo pt ti mt hplan
      · exact ih ms po hpo pt ti mt hplan

theorem planPhase_spec (cfg : ClientCfg) (ms : List Msg) (model : String)
    (maxTokens? : Option ℤ) (pt0 : String) (ti0 : ℕ) (po : PlanOut)
    (hpo : planPhase cfg ms model maxTokens? pt0 ti0 = po)
    (hpt0 : pt0 = messagesToText ms) (hti0 : ti0 = cfg.countTokens pt0) :
    ∀ pt ti mt, po.plan = some (pt, ti, mt) →
      pt = messagesToText po.messages ∧ ti = cfg.countTokens pt ∧
      (estimateCost cfg model ti mt ≤ cfg.maxPerRequestEur ∨
        planOutputTokens ti cfg.chatPriceIn cfg.chatPriceOut
          cfg.maxPerRequestEur 800 = (mt, true)) := by
  intro pt ti mt hplan
  cases maxTokens? with
  | some m =>
    simp only [planPhase] at hpo
    split at hpo
    · rw [← hpo] at hplan
      simp at hplan
    · rename_i hover
      rw [← hpo] at hplan
      simp only [PlanOut.plan, Option.some.injEq, Prod.mk.injEq] at hplan
      obtain ⟨hpt, hti, hmt⟩ := hplan
      rw [← hpo]
      push_neg at hover
      refine ⟨by rw [← hpt, hpt0], by rw [← hti, hti0, ← hpt, hpt0], Or.inl ?_⟩
      rw [← hti, ← hmt]
      exact hover
  | none =>
    simp only [planPhase] at hpo
    split at hpo
    · rename_i hcond
      rw [← hpo] at hplan
      simp only [PlanOut.plan, Option.some.injEq, Prod.mk.injEq] at hplan
      obtain ⟨hpt, hti, hmt⟩ := hplan
      rw [← hpo]
      refine ⟨by rw [← hpt, hpt0], by rw [← hti, hti0, ← hpt, hpt0], Or.inr ?_⟩
      rw [← hti, ← hmt]
      exact Prod.ext rfl hcond.1
    · obtain ⟨h1, h2, h3, _⟩ := shrinkGo_spec cfg ms.length ms po hpo pt ti mt hplan
      exact ⟨h1, h2, Or.inr h3⟩

/-- C1: a `chat_completion` call that is not served from cache and whose
projected cost exceeds the per-request cap raises `BudgetExceededError`
before the upstream endpoint is contacted and leaves the stores untouched
(in particular no `from_cache=false` ledger row is written).  Stated in
three parts: a budget failure performs no upstream call and leaves the
state unchanged; every upstream call actually performed carries a projected
cost within the cap; and a caller-supplied `max_tokens` whose projected
cost exceeds the cap always ends in the budget failure. -/
theorem C1_budget_safety (cfg : ClientCfg) (st : ClientState)
    (messages : List Msg) (model : String) (temperature : ℚ)
    (maxTokens? : Option ℤ) (responseFormat : Option String)
    (extra : List (String × String)) (out : ChatOut)
    (hout : chatCompletion cfg st messages model temperature maxTokens?
      responseFormat extra = out)
    (hModel : containsSub "embed" (pyLower model) = false)
    (hOut : 0 < cfg.chatPriceOut) :
    (out.result = .error .budgetExceeded →
      out.upstreamCalls = [] ∧ out.state = st) ∧
    (∀ call ∈ out.upstreamCalls,
      estimateCost cfg model
        (cfg.countTokens (messagesToText call.messages)) call.maxTokens
        ≤ cfg.maxPerRequestEur) ∧
    (∀ mt : ℤ, maxTokens? = some mt →
      mapFind st.cache
        (model, messagesToText messages,
          ⟨temperature, maxTokens?, responseFormat, extra⟩) = none →
      estimateCost cfg model
        (cfg.countTokens (messagesToText messages)) mt > cfg.maxPerRequestEur →
      out.result = .error .budgetExceeded) := by
  subst hout
  cases hfind : mapFind st.cache
      (model, messagesToText messages,
        ⟨temperature, maxTokens?, responseFormat, extra⟩) with
  | some entry =>
    have hred : chatCompletion cfg st messages model temperature maxTokens?
        responseFormat extra =
        { result := .ok ⟨entry.response, entry.responseJson, entry.inputTokens,
            entry.outputTokens, entry.inputTokens + entry.outputTokens, 0,
            some entry.costEur, true⟩
          messages := messages
          state := ⟨bumpAccess st.cache
              (model, messagesToText messages,
                ⟨temperature, maxTokens?, responseFormat, extra⟩),
            st.ledger ++ [⟨model, "chat_completion", entry.inputTokens,
              entry.outputTokens, 0, true⟩], st.tracker⟩
          upstreamCalls := [] } := by
      simp only [chatCompletion, hfind]
    rw [hred]
    exact ⟨fun h => by simp at h, fun call hc => by simp at hc,
      fun mt hmt hnone => by simp at hnone⟩
  | none =>
    have hpo : planPhase cfg messages model maxTokens? (messagesToText messages)
        (cfg.countTokens (messagesToText messages)) =
        planPhase cfg messages model maxTokens? (messagesToText messages)
          (cfg.countTokens (messagesToText messages)) := rfl
    generalize hpo2 : planPhase cfg messages model maxTokens?
      (messagesToText messages)
      (cfg.countTokens (messagesToText messages)) = po at hpo
    cases hplan : po.plan with
    | none =>
      have hred : chatCompletion cfg st messages model temperature maxTokens?
          responseFormat extra =
          { result := .error .budgetExceeded
            messages := po.messages
            state := st
            upstreamCalls := [] } := by
        simp only [chatCompletion, hfind, hpo2, hplan]
      rw [hred]
      refine ⟨fun _ => ⟨rfl, rfl⟩, fun call hc => by simp at hc,
        fun mt hmt hnone hover => rfl⟩
    | some triple =>
      obtain ⟨ptF, tiF, mtF⟩ := triple
      obtain ⟨hpt, hti, hdisj⟩ :=
        planPhase_spec cfg messages model maxTokens? _ _ po hpo2 rfl rfl
          ptF tiF mtF hplan
      have hbound : estimateCost cfg model tiF mtF ≤ cfg.maxPerRequestEur := by
        rcases hdisj with h | h
        · exact h
        · have h2 := planOutputTokens_cost_le tiF cfg.chatPriceIn
            cfg.chatPriceOut cfg.maxPerRequestEur 800 mtF hOut h
          have heq : estimateCost cfg model tiF mtF =
              planInputCost tiF cfg.chatPriceIn +
                (mtF : ℚ) / 1000000 * cfg.chatPriceOut := by
            simp [estimateCost, hModel, planInputCost]
          rw [heq]
          exact h2
      have hsup : ∀ (mt : ℤ), maxTokens? = some mt →
          estimateCost cfg model
            (cfg.countTokens (messagesToText messages)) mt
            > cfg.maxPerRequestEur → False := by
        intro mt hmt hover
        subst hmt
        have : planPhase cfg messages model (some mt) (messagesToText messages)
            (cfg.countTokens (messagesToText messages)) =
            ⟨messages, none⟩ := by
          simp only [planPhase]
          rw [if_pos hover]
        rw [hpo2] at this
        rw [this] at hplan
        simp at hplan
      cases hup : cfg.upstream
          ⟨model, po.messages, temperature, mtF, responseFormat, extra⟩ with
      | error e =>
        have hred : chatCompletion cfg st messages model temperature maxTokens?
            responseFormat extra =
            { result := .error (.upstreamFailure e)
              messages := po.messages
              state := st
              upstreamCalls :=
                [⟨model, po.messages, temperature, mtF, responseFormat, extra⟩] } := by
          simp only [chatCompletion, hfind, hpo2, hplan, hup]
        rw [hred]
        refine ⟨fun h => by simp at h, fun call hc => ?_,
          fun mt hmt hnone hover => (hsup mt hmt hover).elim⟩
        simp only [List.mem_singleton] at hc
        subst hc
        rw [← hpt, ← hti]
        exact hbound
      | ok resp =>
        have hred : chatCompletion cfg st messages model temperature maxTokens?
            responseFormat extra =
            { result := .ok ⟨resp.text,
                (if responseFormat = some "json_object" then
                  cfg.parseJson resp.text else none),
                resp.promptTokens, resp.completionTokens, resp.totalTokens,
                estimateCost cfg model resp.promptTokens resp.completionTokens,
                none, false⟩
              messages := po.messages
              state := ⟨mapInsert st.cache
                  (model, ptF, ⟨temperature, maxTokens?, responseFormat, extra⟩)
                  ⟨resp.text,
                    (if responseFormat = some "json_object" then
                      cfg.parseJson resp.text else none),
                    resp.promptTokens, resp.completionTokens,
                    estimateCost cfg model resp.promptTokens
                      resp.completionTokens, 1⟩,
                st.ledger ++ [⟨model, "chat_completion", resp.promptTokens,
                  resp.completionTokens,
                  estimateCost cfg model resp.promptTokens
                    resp.completionTokens, false⟩],
                st.tracker ++ [⟨model, "chat_completion", resp.promptTokens,
                  resp.completionTokens,
                  estimateCost cfg model resp.promptTokens
                    resp.completionTokens, false⟩]⟩
              upstreamCalls :=
                [⟨model, po.messages, temperature, mtF, responseFormat, extra⟩] } := by
          simp only [chatCompletion, hfind, hpo2, hplan, hup]
        rw [hred]
        refine ⟨fun h => by simp at h, fun call hc => ?_,
          fun mt hmt hnone hover => (hsup mt hmt hover).elim⟩
        simp only [List.mem_singleton] at hc
        subst hc
        rw [← hpt, ← hti]
        exact hbound

/-- Witness for C1: under `cfgOver` the prompt `user: hi` with a supplied
`max_tokens = 5` projects to 13 EUR, far over the 0.30 EUR cap, and the call
raises the budget error. -/
theorem C1_budget_safety_witness :
    containsSub "embed" (pyLower "gpt-4o-mini") = false ∧
    (0 : ℚ) < cfgOver.chatPriceOut ∧
    (chatCompletion cfgOver stEmpty msgsHi "gpt-4o-mini" 0 (some 5) none
      []).result = .error .budgetExceeded := by
  have hModel : containsSub "embed" (pyLower "gpt-4o-mini") = false := by decide
  have hOut : (0 : ℚ) < cfgOver.chatPriceOut := by
    simp only [cfgOver]; norm_num
  refine ⟨hModel, hOut, ?_⟩
  have htext : messagesToText msgsHi = "user: hi" := by decide
  have hover : estimateCost cfgOver "gpt-4o-mini"
      (cfgOver.countTokens (messagesToText msgsHi)) 5
      > cfgOver.maxPerRequestEur := by
    rw [htext]
    have hcount : cfgOver.countTokens "user: hi" = 8 := by decide
    rw [hcount]
    simp only [estimateCost, hModel, Bool.false_eq_true, if_false, cfgOver]
    norm_num
  exact (C1_budget_safety cfgOver stEmpty msgsHi "gpt-4o-mini" 0 (some 5) none
    [] _ rfl hModel hOut).2.2 5 rfl rfl hover

/-- C2: a `chat_completion` call that misses the cache and succeeds
(`from_cache = false`) is followed, on the same state and messages, by a
byte-identical cache hit: same response text, `from_cache = true`, zero
cost.  The second call is issued on the state and messages the first call
left behind, as in Python, where the client mutates the caller-owned list
in place. -/
theorem C2_cache_idempotence (cfg : ClientCfg) (st : ClientState)
    (messages : List Msg) (model : String) (temperature : ℚ)
    (maxTokens? : Option ℤ) (responseFormat : Option String)
    (extra : List (String × String)) (out1 : ChatOut) (o1 : ChatOk)
    (hout1 : chatCompletion cfg st messages model temperature maxTokens?
      responseFormat extra = out1)
    (h1 : out1.result = .ok o1) (h2 : o1.fromCache = false) :
    ∃ o2 : ChatOk,
      (chatCompletion cfg out1.state out1.messages model temperature maxTokens?
        responseFormat extra).result = .ok o2 ∧
      o2.response = o1.response ∧ o2.fromCache = true ∧ o2.costEur = 0 := by
  subst hout1
  cases hfind : mapFind st.cache
      (model, messagesToText messages,
        ⟨temperature, maxTokens?, responseFormat, extra⟩) with
  | some entry =>
    have hred : chatCompletion cfg st messages model temperature maxTokens?
        responseFormat extra =
        { result := .ok ⟨entry.response, entry.responseJson, entry.inputTokens,
            entry.outputTokens, entry.inputTokens + entry.outputTokens, 0,
            some entry.costEur, true⟩
          messages := messages
          state := ⟨bumpAccess st.cache
              (model, messagesToText messages,
                ⟨temperature, maxTokens?, responseFormat, extra⟩),
            st.ledger ++ [⟨model, "chat_completion", entry.inputTokens,
              entry.outputTokens, 0, true⟩], st.tracker⟩
          upstreamCalls := [] } := by
      simp only [chatCompletion, hfind]
    rw [hred] at h1
    have h1b : Except.ok (⟨entry.response, entry.responseJson,
        entry.inputTokens, entry.outputTokens,
        entry.inputTokens + entry.outputTokens, 0,
        some entry.costEur, true⟩ : ChatOk) = Except.ok o1 := h1
    injection h1b with h3
    rw [← h3] at h2
    simp at h2
  | none =>
    generalize hpo2 : planPhase cfg messages model maxTokens?
      (messagesToText messages)
      (cfg.countTokens (messagesToText messages)) = po
    cases hplan : po.plan with
    | none =>
      have hred : chatCompletion cfg st messages model temperature maxTokens?
          responseFormat extra =
          { result := .error .budgetExceeded
            messages := po.messages
            state := st
            upstreamCalls := [] } := by
        simp only [chatCompletion, hfind, hpo2, hplan]
      rw [hred] at h1
      exact absurd h1 (by simp)
    | some triple =>
      obtain ⟨ptF, tiF, mtF⟩ := triple
      obtain ⟨hpt, hti, _⟩ :=
        planPhase_spec cfg messages model maxTokens? _ _ po hpo2 rfl rfl
          ptF tiF mtF hplan
      cases hup : cfg.upstream
          ⟨model, po.messages, temperature, mtF, responseFormat, extra⟩ with
      | error e =>
        have hred : chatCompletion cfg st messages model temperature maxTokens?
            responseFormat extra =
            { result := .error (.upstreamFailure e)
              messages := po.messages
              state := st
              upstreamCalls :=
                [⟨model, po.messages, temperature, mtF, responseFormat,
                  extra⟩] } := by
          simp only [chatCompletion, hfind, hpo2, hplan, hup]
        rw [hred] at h1
        exact absurd h1 (by simp)
      | ok resp =>
        have hred : chatCompletion cfg st messages model temperature maxTokens?
            responseFormat extra =
            { result := .ok ⟨resp.text,
                (if responseFormat = some "json_object" then
                  cfg.parseJson resp.text else none),
                resp.promptTokens, resp.completionTokens, resp.totalTokens,
                estimateCost cfg model resp.promptTokens resp.completionTokens,
                none, false⟩
              messages := po.messages
              state := ⟨mapInsert st.cache
                  (model, ptF, ⟨temperature, maxTokens?, responseFormat, extra⟩)
                  ⟨resp.text,
                    (if responseFormat = some "json_object" then
                      cfg.parseJson resp.text else none),
                    resp.promptTokens, resp.completionTokens,
                    estimateCost cfg model resp.promptTokens
                      resp.completionTokens, 1⟩,
                st.ledger ++ [⟨model, "chat_completion", resp.promptTokens,
                  resp.completionTokens,
                  estimateCost cfg model resp.promptTokens
                    resp.completionTokens, false⟩],
                st.tracker ++ [⟨model, "chat_completion", resp.promptTokens,
                  resp.completionTokens,
                  estimateCost cfg model resp.promptTokens
                    resp.completionTokens, false⟩]⟩
              upstreamCalls :=
                [⟨model, po.messages, temperature, mtF, responseFormat,
                  extra⟩] } := by
          simp only [chatCompletion, hfind, hpo2, hplan, hup]
        rw [hred] at h1 ⊢
        have h1b : Except.ok (⟨resp.text,
            (if responseFormat = some "json_object" then
              cfg.parseJson resp.text else none),
            resp.promptTokens, resp.completionTokens, resp.totalTokens,
            estimateCost cfg model resp.promptTokens resp.completionTokens,
            none, false⟩ : ChatOk) = Except.ok o1 := h1
        injection h1b with h3
        have hfind2 : mapFind (mapInsert st.cache
            (model, ptF, ⟨temperature, maxTokens?, responseFormat, extra⟩)
            ⟨resp.text,
              (if responseFormat = some "json_object" then
                cfg.parseJson resp.text else none),
              resp.promptTokens, resp.completionTokens,
              estimateCost cfg model resp.promptTokens resp.completionTokens,
              1⟩)
            (model, messagesToText po.messages,
              ⟨temperature, maxTokens?, responseFormat, extra⟩) =
            some ⟨resp.text,
              (if responseFormat = some "json_object" then
                cfg.parseJson resp.text else none),
              resp.promptTokens, resp.completionTokens,
              estimateCost cfg model resp.promptTokens resp.completionTokens,
              1⟩ := by
          rw [← hpt]
          exact mapFind_mapInsert _ _ _
        refine ⟨⟨resp.text,
            (if responseFormat = some "json_object" then
              cfg.parseJson resp.text else none),
            resp.promptTokens, resp.completionTokens,
            resp.promptTokens + resp.completionTokens, 0,
            some (estimateCost cfg model resp.promptTokens
              resp.completionTokens), true⟩, ?_, ?_, rfl, rfl⟩
        · show (chatCompletion cfg
            ⟨mapInsert st.cache
              (model, ptF, ⟨temperature, maxTokens?, responseFormat, extra⟩)
              ⟨resp.text,
                (if responseFormat = some "json_object" then
                  cfg.parseJson resp.text else none),
                resp.promptTokens, resp.completionTokens,
                estimateCost cfg model resp.promptTokens resp.completionTokens,
                1⟩,
              st.ledger ++ [⟨model, "chat_completion", resp.promptTokens,
                resp.completionTokens,
                estimateCost cfg model resp.promptTokens
                  resp.completionTokens, false⟩],
              st.tracker ++ [⟨model, "chat_completion", resp.promptTokens,
                resp.completionTokens,
                estimateCost cfg model resp.promptTokens
                  resp.completionTokens, false⟩]⟩
            po.messages model temperature maxTokens? responseFormat
            extra).result = _
          simp only [chatCompletion, hfind2]
        · rw [← h3]

/-- Witness for C2: under `cfgFit` a fresh call on `user: hi` succeeds
uncached, and the repeated call is a zero-cost cache hit with the same
text. -/
theorem C2_cache_idempotence_witness :
    ∃ o2 : ChatOk,
      (chatCompletion cfgFit
        (chatCompletion cfgFit stEmpty msgsHi "gpt-4o-mini" 0 none none
          []).state
        (chatCompletion cfgFit stEmpty msgsHi "gpt-4o-mini" 0 none none
          []).messages
        "gpt-4o-mini" 0 none none []).result = .ok o2 ∧
      o2.response = "olá" ∧ o2.fromCache = true ∧ o2.costEur = 0 := by
  have hplan : planOutputTokens (cfgFit.countTokens (messagesToText msgsHi))
      cfgFit.chatPriceIn cfgFit.chatPriceOut cfgFit.maxPerRequestEur 800 =
      (1, true) := by
    have htext : messagesToText msgsHi = "user: hi" := by decide
    rw [htext]
    have hcount : cfgFit.countTokens "user: hi" = 8 := by decide
    rw [hcount]
    have hcost : planInputCost 8 cfgFit.chatPriceIn = 0 := by
      simp only [cfgFit, planInputCost]
      norm_num
    rw [planOutputTokens_eq, hcost]
    have hnot : ¬ (cfgFit.maxPerRequestEur - 0 ≤ 0) := by
      simp only [cfgFit]
      norm_num
    rw [if_neg hnot]
    have hval : (cfgFit.maxPerRequestEur - 0) / cfgFit.chatPriceOut * 1000000 =
        1 := by
      simp only [cfgFit]
      norm_num
    rw [hval, pyInt_of_nonneg _ (by norm_num)]
    norm_num
  have hout1 : chatCompletion cfgFit stEmpty msgsHi "gpt-4o-mini" 0 none none
      [] = chatCompletion cfgFit stEmpty msgsHi "gpt-4o-mini" 0 none none
      [] := rfl
  have hfind : mapFind stEmpty.cache
      ("gpt-4o-mini", messagesToText msgsHi, ⟨0, none, none, []⟩) = none := rfl
  have hpp : planPhase cfgFit msgsHi "gpt-4o-mini" none
      (messagesToText msgsHi) (cfgFit.countTokens (messagesToText msgsHi)) =
      ⟨msgsHi, some (messagesToText msgsHi,
        cfgFit.countTokens (messagesToText msgsHi), 1)⟩ := by
    simp only [planPhase, hplan]
    norm_num
  have hresult : (chatCompletion cfgFit stEmpty msgsHi "gpt-4o-mini" 0 none
      none []).result = .ok ⟨"olá", none, 8, 3, 11,
        estimateCost cfgFit "gpt-4o-mini" 8 3, none, false⟩ := by
    simp only [chatCompletion, hfind, hpp]
    rfl
  have h2 : (⟨"olá", none, 8, 3, 11,
      estimateCost cfgFit "gpt-4o-mini" 8 3, none, false⟩ : ChatOk).fromCache
      = false := rfl
  obtain ⟨o2, ho2, hresp, hcache, hcost⟩ :=
    C2_cache_idempotence cfgFit stEmpty msgsHi "gpt-4o-mini" 0 none none []
      _ _ rfl hresult h2
  exact ⟨o2, ho2, by rw [hresp], hcache, hcost⟩

theorem msgsShrunk_refl (cfg : ClientCfg) (ms : List Msg) :
    MsgsShrunk cfg ms ms :=
  ⟨rfl, fun _ m0 h => ⟨m0, h, rfl, Or.inl rfl⟩⟩

theorem shrinkGo_get_of_le (cfg : ClientCfg) :
    ∀ (n : ℕ) (ms : List Msg) (po : PlanOut), shrinkGo cfg n ms = po →
      ∀ i, n ≤ i → po.messages.get? i = ms.get? i := by
  intro n
  induction n with
  | zero =>
    intro ms po hpo i h
    simp only [shrinkGo] at hpo
    rw [← hpo]
  | succ n ih =>
    intro ms po hpo i h
    have hn : n ≤ i := Nat.le_of_succ_le h
    have hne : n ≠ i := by omega
    simp only [shrinkGo] at hpo
    split at hpo
    · exact ih ms po hpo i hn
    · split at hpo
      · split at hpo
        · rw [← hpo]
          exact List.get?_set_ne _ _ hne
        · rw [ih _ po hpo i hn]
          exact List.get?_set_ne _ _ hne
      · exact ih ms po hpo i hn

theorem shrinkGo_shrunk (cfg : ClientCfg) :
    ∀ (n : ℕ) (ms : List Msg) (po : PlanOut), shrinkGo cfg n ms = po →
      MsgsShrunk cfg ms po.messages := by
  intro n
  induction n with
  | zero =>
    intro ms po hpo
    simp only [shrinkGo] at hpo
    rw [← hpo]
    exact msgsShrunk_refl cfg ms
  | succ n ih =>
    intro ms po hpo
    simp only [shrinkGo] at hpo
    split at hpo
    · exact ih ms po hpo
    · rename_i m hget
      split at hpo
      · rename_i hrole
        split at hpo
        · rw [← hpo]
          constructor
          · exact List.length_set ms n _
          · intro i m0 h0
            by_cases hi : i = n
            · subst hi
              rw [hget] at h0
              injection h0 with hm0
              subst hm0
              have hlt : i < ms.length := by
                by_contra hc
                push_neg at hc
                rw [List.get?_eq_none.mpr hc] at hget
                cases hget
              exact ⟨⟨m.role, shrinkContext m.content 1000 cfg.countTokens⟩,
                List.get?_set_eq_of_lt _ hlt, rfl, Or.inr ⟨hrole, rfl⟩⟩
            · exact ⟨m0, by rw [List.get?_set_ne _ _ (by omega)]; exact h0,
                rfl, Or.inl rfl⟩
        · have hrel := ih _ po hpo
          have hge := shrinkGo_get_of_le cfg n _ po hpo
          constructor
          · rw [hrel.1, List.length_set]
          · intro i m0 h0
            by_cases hi : i = n
            · subst hi
              rw [hget] at h0
              injection h0 with hm0
              subst hm0
              have hlt : i < ms.length := by
                by_contra hc
                push_neg at hc
                rw [List.get?_eq_none.mpr hc] at hget
                cases hget
              refine ⟨⟨m.role, shrinkContext m.content 1000 cfg.countTokens⟩,
                ?_, rfl, Or.inr ⟨hrole, rfl⟩⟩
              rw [hge i le_rfl]
              exact List.get?_set_eq_of_lt _ hlt
            · exact hrel.2 i m0
                (by rw [List.get?_set_ne _ _ (by omega)]; exact h0)
      · exact ih ms po hpo

theorem planPhase_messages_some (cfg : ClientCfg) (ms : List Msg)
    (model : String) (mt : ℤ) (pt0 : String) (ti0 : ℕ) :
    (planPhase cfg ms model (some mt) pt0 ti0).messages = ms := by
  simp only [planPhase]
  split <;> rfl

theorem planPhase_messages_fit (cfg : ClientCfg) (ms : List Msg)
    (model : String) (pt0 : String) (ti0 : ℕ)
    (h2 : (planOutputTokens ti0 cfg.chatPriceIn cfg.chatPriceOut
      cfg.maxPerRequestEur 800).2 = true)
    (h1 : (planOutputTokens ti0 cfg.chatPriceIn cfg.chatPriceOut
      cfg.maxPerRequestEur 800).1 ≠ 0) :
    planPhase cfg ms model none pt0 ti0 =
      ⟨ms, some (pt0, ti0, (planOutputTokens ti0 cfg.chatPriceIn
        cfg.chatPriceOut cfg.maxPerRequestEur 800).1)⟩ := by
  simp only [planPhase]
  rw [if_pos ⟨h2, h1⟩]

theorem planPhase_shrunk (cfg : ClientCfg) (ms : List Msg) (model : String)
    (maxTokens? : Option ℤ) (pt0 : String) (ti0 : ℕ) :
    MsgsShrunk cfg ms (planPhase cfg ms model maxTokens? pt0 ti0).messages := by
  cases maxTokens? with
  | some mt =>
    rw [planPhase_messages_some]
    exact msgsShrunk_refl cfg ms
  | none =>
    simp only [planPhase]
    split
    · exact msgsShrunk_refl cfg ms
    · exact shrinkGo_shrunk cfg ms.length ms _ rfl

/-- C9: the messages argument of `chat_completion` is mutated in place only
by the shrink loop.  A cache hit, a caller-supplied `max_tokens`, or a first
planning pass that fits leaves the list unchanged; in every case the final
list has the same length and roles, and each content is either untouched or —
for a user message — overwritten with its shrunken text. -/
theorem C9_messages_frame (cfg : ClientCfg) (st : ClientState)
    (messages : List Msg) (model : String) (temperature : ℚ)
    (maxTokens? : Option ℤ) (responseFormat : Option String)
    (extra : List (String × String)) (out : ChatOut)
    (hout : chatCompletion cfg st messages model temperature maxTokens?
      responseFormat extra = out) :
    (∀ o : ChatOk, out.result = .ok o → o.fromCache = true →
      out.messages = messages) ∧
    (∀ mt : ℤ, maxTokens? = some mt → out.messages = messages) ∧
    (maxTokens? = none →
      (planOutputTokens (cfg.countTokens (messagesToText messages))
        cfg.chatPriceIn cfg.chatPriceOut cfg.maxPerRequestEur 800).2 = true →
      (planOutputTokens (cfg.countTokens (messagesToText messages))
        cfg.chatPriceIn cfg.chatPriceOut cfg.maxPerRequestEur 800).1 ≠ 0 →
      out.messages = messages) ∧
    MsgsShrunk cfg messages out.messages := by
  subst hout
  cases hfind : mapFind st.cache
      (model, messagesToText messages,
        ⟨temperature, maxTokens?, responseFormat, extra⟩) with
  | some entry =>
    have hred : chatCompletion cfg st messages model temperature maxTokens?
        responseFormat extra =
        { result := .ok ⟨entry.response, entry.responseJson, entry.inputTokens,
            entry.outputTokens, entry.inputTokens + entry.outputTokens, 0,
            some entry.costEur, true⟩
          messages := messages
          state := ⟨bumpAccess st.cache
              (model, messagesToText messages,
                ⟨temperature, maxTokens?, responseFormat, extra⟩),
            st.ledger ++ [⟨model, "chat_completion", entry.inputTokens,
              entry.outputTokens, 0, true⟩], st.tracker⟩
          upstreamCalls := [] } := by
      simp only [chatCompletion, hfind]
    rw [hred]
    exact ⟨fun _ _ _ => rfl, fun _ _ => rfl, fun _ _ _ => rfl,
      msgsShrunk_refl cfg messages⟩
  | none =>
    generalize hpo2 : planPhase cfg messages model maxTokens?
      (messagesToText messages)
      (cfg.countTokens (messagesToText messages)) = po
    have hshr : MsgsShrunk cfg messages po.messages := by
      rw [← hpo2]
      exact planPhase_shrunk cfg messages model maxTokens? _ _
    have hmsgsSome : ∀ mt : ℤ, maxTokens? = some mt →
        po.messages = messages := by
      intro mt hmt
      subst hmt
      rw [← hpo2, planPhase_messages_some]
    have hmsgsFit : maxTokens? = none →
        (planOutputTokens (cfg.countTokens (messagesToText messages))
          cfg.chatPriceIn cfg.chatPriceOut cfg.maxPerRequestEur 800).2 = true →
        (planOutputTokens (cfg.countTokens (messagesToText messages))
          cfg.chatPriceIn cfg.chatPriceOut cfg.maxPerRequestEur 800).1 ≠ 0 →
        po.messages = messages := by
      intro hmt h2 h1
      subst hmt
      rw [← hpo2, planPhase_messages_fit cfg messages model _ _ h2 h1]
    cases hplan : po.plan with
    | none =>
      have hred : chatCompletion cfg st messages model temperature maxTokens?
          responseFormat extra =
          { result := .error .budgetExceeded
            messages := po.messages
            state := st
            upstreamCalls := [] } := by
        simp only [chatCompletion, hfind, hpo2, hplan]
      rw [hred]
      refine ⟨fun o ho _ => ?_, hmsgsSome, hmsgsFit, hshr⟩
      have ho2 : (Except.error ChatErr.budgetExceeded : Except ChatErr ChatOk)
          = Except.ok o := ho
      cases ho2
    | some triple =>
      obtain ⟨ptF, tiF, mtF⟩ := triple
      cases hup : cfg.upstream
          ⟨model, po.messages, temperature, mtF, responseFormat, extra⟩ with
      | error e =>
        have hred : chatCompletion cfg st messages model temperature maxTokens?
            responseFormat extra =
            { result := .error (.upstreamFailure e)
              messages := po.messages
              state := st
              upstreamCalls :=
                [⟨model, po.messages, temperature, mtF, responseFormat,
                  extra⟩] } := by
          simp only [chatCompletion, hfind, hpo2, hplan, hup]
        rw [hred]
        refine ⟨fun o ho _ => ?_, hmsgsSome, hmsgsFit, hshr⟩
        have ho2 : (Except.error (ChatErr.upstreamFailure e) :
            Except ChatErr ChatOk) = Except.ok o := ho
        cases ho2
      | ok resp =>
        have hred : chatCompletion cfg st messages model temperature maxTokens?
            responseFormat extra =
            { result := .ok ⟨resp.text,
                (if responseFormat = some "json_object" then
                  cfg.parseJson resp.text else none),
                resp.promptTokens, resp.completionTokens, resp.totalTokens,
                estimateCost cfg model resp.promptTokens resp.completionTokens,
                none, false⟩
              messages := po.messages
              state := ⟨mapInsert st.cache
                  (model, ptF, ⟨temperature, maxTokens?, responseFormat, extra⟩)
                  ⟨resp.text,
                    (if responseFormat = some "json_object" then
                      cfg.parseJson resp.text else none),
                    resp.promptTokens, resp.completionTokens,
                    estimateCost cfg model resp.promptTokens
                      resp.completionTokens, 1⟩,
                st.ledger ++ [⟨model, "chat_completion", resp.promptTokens,
                  resp.completionTokens,
                  estimateCost cfg model resp.promptTokens
                    resp.completionTokens, false⟩],
                st.tracker ++ [⟨model, "chat_completion", resp.promptTokens,
                  resp.completionTokens,
                  estimateCost cfg model resp.promptTokens
                    resp.completionTokens, false⟩]⟩
              upstreamCalls :=
                [⟨model, po.messages, temperature, mtF, responseFormat,
                  extra⟩] } := by
          simp only [chatCompletion, hfind, hpo2, hplan, hup]
        rw [hred]
        refine ⟨fun o ho hc => ?_, hmsgsSome, hmsgsFit, hshr⟩
        have ho2 : Except.ok (⟨resp.text,
            (if responseFormat = some "json_object" then
              cfg.parseJson resp.text else none),
            resp.promptTokens, resp.completionTokens, resp.totalTokens,
            estimateCost cfg model resp.promptTokens resp.completionTokens,
            none, false⟩ : ChatOk) = Except.ok o := ho
        injection ho2 with h3
        rw [← h3] at hc
        exact absurd hc (by simp)

/-- Witness for C9: a call with a caller-supplied `max_tokens` leaves the
messages untouched, while under `cfgOver` (where nothing fits the cap) the
user message `a  b` is overwritten in place with its shrunken text `a b`
before the budget error is raised. -/
theorem C9_messages_frame_witness :
    (chatCompletion cfgFit stEmpty msgsHi "gpt-4o-mini" 0 (some 1) none
      []).messages = msgsHi ∧
    (chatCompletion cfgOver stEmpty [⟨"user", "a  b"⟩] "gpt-4o-mini" 0 none
      none []).messages = [⟨"user", "a b"⟩] := by
  constructor
  · exact (C9_messages_frame cfgFit stEmpty msgsHi "gpt-4o-mini" 0 (some 1)
      none [] _ rfl).2.1 1 rfl
  · have hplanA : planOutputTokens 10 cfgOver.chatPriceIn cfgOver.chatPriceOut
        cfgOver.maxPerRequestEur 800 = (0, false) := by
      have hc : cfgOver.maxPerRequestEur - planInputCost 10 cfgOver.chatPriceIn
          ≤ 0 := by
        simp only [cfgOver, planInputCost]
        norm_num
      rw [planOutputTokens_eq, if_pos hc]
    have hplanB : planOutputTokens 9 cfgOver.chatPriceIn cfgOver.chatPriceOut
        cfgOver.maxPerRequestEur 800 = (0, false) := by
      have hc : cfgOver.maxPerRequestEur - planInputCost 9 cfgOver.chatPriceIn
          ≤ 0 := by
        simp only [cfgOver, planInputCost]
        norm_num
      rw [planOutputTokens_eq, if_pos hc]
    have hshr : shrinkContext "a  b" 1000 cfgOver.countTokens = "a b" := by
      decide
    have hgo : shrinkGo cfgOver 1 [⟨"user", "a  b"⟩] =
        ⟨[⟨"user", "a b"⟩], none⟩ := by
      show shrinkGo cfgOver (0 + 1) [⟨"user", "a  b"⟩] = _
      simp only [shrinkGo, List.get?, List.set, hshr]
      have htext2 : messagesToText [⟨"user", "a b"⟩] = "user: a b" := by
        decide
      have hcount2 : cfgOver.countTokens "user: a b" = 9 := by decide
      rw [htext2, hcount2, hplanB]
      simp
    have htext : messagesToText [⟨"user", "a  b"⟩] = "user: a  b" := by decide
    have hcount : cfgOver.countTokens "user: a  b" = 10 := by decide
    have hpp : planPhase cfgOver [⟨"user", "a  b"⟩] "gpt-4o-mini" none
        (messagesToText [⟨"user", "a  b"⟩])
        (cfgOver.countTokens (messagesToText [⟨"user", "a  b"⟩])) =
        ⟨[⟨"user", "a b"⟩], none⟩ := by
      rw [planPhase, htext, hcount, hplanA]
      simp only [Prod.snd, Prod.fst]
      rw [if_neg (by simp)]
      exact hgo
    have hfind : mapFind stEmpty.cache
        ("gpt-4o-mini", messagesToText [⟨"user", "a  b"⟩],
          ⟨0, none, none, []⟩) = none := rfl
    have hred : chatCompletion cfgOver stEmpty [⟨"user", "a  b"⟩]
        "gpt-4o-mini" 0 none none [] =
        { result := .error .budgetExceeded
          messages := [⟨"user", "a b"⟩]
          state := stEmpty
          upstreamCalls := [] } := by
      simp only [chatCompletion, hfind, hpp]
    rw [hred]

/-- C3: the Managed Model Client never consults the Document Budget Tracker.
`DocumentCostTracker.can_spend` refuses further spend for a tag whose
cumulative cost has reached the 0.30 EUR cap, yet a `chat_completion` call
carrying `document_id` for that very tag (which lands in the extra kwargs)
proceeds to the upstream endpoint and returns an uncached success — no
`DocumentBudgetExceeded` failure exists anywhere in the client. -/
theorem C3_document_budget_not_consulted :
    canSpend [("doc1", 3/10)] "doc1" (1/100) = false ∧
    (chatCompletion cfgFit stEmpty msgsHi "gpt-4o-mini" 0 none none
      [("document_id", "doc1")]).upstreamCalls =
      [⟨"gpt-4o-mini", msgsHi, 0, 1, none, [("document_id", "doc1")]⟩] ∧
    (chatCompletion cfgFit stEmpty msgsHi "gpt-4o-mini" 0 none none
      [("document_id", "doc1")]).result =
      .ok ⟨"olá", none, 8, 3, 11, estimateCost cfgFit "gpt-4o-mini" 8 3, none,
        false⟩ := by
  have hspend : canSpend [("doc1", 3/10)] "doc1" (1/100) = false := by
    have hget : pyGet [("doc1", (3 : ℚ)/10)] "doc1" 0 = 3/10 := by
      simp [pyGet]
    simp only [canSpend, hget, maxCostPerDocument]
    rw [if_pos (by norm_num)]
  have hplan : planOutputTokens (cfgFit.countTokens (messagesToText msgsHi))
      cfgFit.chatPriceIn cfgFit.chatPriceOut cfgFit.maxPerRequestEur 800 =
      (1, true) := by
    have htext : messagesToText msgsHi = "user: hi" := by decide
    rw [htext]
    have hcount : cfgFit.countTokens "user: hi" = 8 := by decide
    rw [hcount]
    have hcost : planInputCost 8 cfgFit.chatPriceIn = 0 := by
      simp only [cfgFit, planInputCost]
      norm_num
    rw [planOutputTokens_eq, hcost]
    have hnot : ¬ (cfgFit.maxPerRequestEur - 0 ≤ 0) := by
      simp only [cfgFit]
      norm_num
    rw [if_neg hnot]
    have hval : (cfgFit.maxPerRequestEur - 0) / cfgFit.chatPriceOut * 1000000 =
        1 := by
      simp only [cfgFit]
      norm_num
    rw [hval, pyInt_of_nonneg _ (by norm_num)]
    norm_num
  have hpp : planPhase cfgFit msgsHi "gpt-4o-mini" none
      (messagesToText msgsHi) (cfgFit.countTokens (messagesToText msgsHi)) =
      ⟨msgsHi, some (messagesToText msgsHi,
        cfgFit.countTokens (messagesToText msgsHi), 1)⟩ := by
    simp only [planPhase, hplan]
    norm_num
  have hfind : mapFind stEmpty.cache
      ("gpt-4o-mini", messagesToText msgsHi,
        ⟨0, none, none, [("document_id", "doc1")]⟩) = none := rfl
  have hred : chatCompletion cfgFit stEmpty msgsHi "gpt-4o-mini" 0 none none
      [("document_id", "doc1")] =
      { result := .ok ⟨"olá", none, 8, 3, 11,
          estimateCost cfgFit "gpt-4o-mini" 8 3, none, false⟩
        messages := msgsHi
        state := ⟨mapInsert stEmpty.cache
            ("gpt-4o-mini", messagesToText msgsHi,
              ⟨0, none, none, [("document_id", "doc1")]⟩)
            ⟨"olá", none, 8, 3, estimateCost cfgFit "gpt-4o-mini" 8 3, 1⟩,
          stEmpty.ledger ++ [⟨"gpt-4o-mini", "chat_completion", 8, 3,
            estimateCost cfgFit "gpt-4o-mini" 8 3, false⟩],
          stEmpty.tracker ++ [⟨"gpt-4o-mini", "chat_completion", 8, 3,
            estimateCost cfgFit "gpt-4o-mini" 8 3, false⟩]⟩
        upstreamCalls :=
          [⟨"gpt-4o-mini", msgsHi, 0, 1, none, [("document_id", "doc1")]⟩] } := by
    simp only [chatCompletion, hfind, hpp]
    rfl
  rw [hred]
  exact ⟨hspend, rfl, rfl⟩

/-- C7: the deterministic filter returns the product of the penalties of the
rules that fired, each rule at most once (size 0.8, cae 0.7, geo 0.9); the
penalty lies in (0, 1] and equals 1 exactly when no rule fired. -/
theorem C7_penalty_bounds (inc : Incentive) (c : Company) (p : ℚ)
    (applied : List (String × ℚ))
    (h : applyDeterministicFilters inc c = (p, applied)) :
    p = (applied.map Prod.snd).prod ∧ 0 < p ∧ p ≤ 1 ∧
    (p = 1 ↔ applied = []) ∧ applied.length ≤ 3 ∧
    ∀ kv ∈ applied, kv.2 = 8/10 ∨ kv.2 = 7/10 ∨ kv.2 = 9/10 := by
  cases hs : sizeRuleFires inc c <;> cases hc : caeRuleFires inc c <;>
    cases hg : geoRuleFires inc c <;>
  · simp only [applyDeterministicFilters, hs, hc, hg, Bool.false_eq_true,
      if_false, if_true, Prod.mk.injEq] at h
    obtain ⟨hp, ha⟩ := h
    subst hp
    subst ha
    refine ⟨by norm_num, by norm_num, by norm_num, ?_,
      by norm_num, by intro kv hkv; fin_cases hkv <;> norm_num⟩
    simp <;> norm_num

/-- Witness for C7: for the incentive declaring sizes `[sme]`, sectors
`[41,42,43]` and scope `Lisboa, Porto`, a large Lisboa company in sector 41
fires only the size rule: penalty 0.8. -/
theorem C7_penalty_bounds_witness :
    applyDeterministicFilters incFull compB = (8/10, [("size", 8/10)]) ∧
    (0 : ℚ) < 8/10 ∧ (8/10 : ℚ) ≤ 1 := by
  have hs : sizeRuleFires incFull compB = true := by decide
  have hc : caeRuleFires incFull compB = false := by decide
  have hg : geoRuleFires incFull compB = false := by decide
  have heval : applyDeterministicFilters incFull compB =
      (8/10, [("size", 8/10)]) := by
    simp only [applyDeterministicFilters, hs, hc, hg, Bool.false_eq_true,
      if_false, if_true]
    norm_num
  have h := C7_penalty_bounds incFull compB (8/10) [("size", 8/10)] heval
  exact ⟨heval, h.2.1, h.2.2.1⟩

theorem findMatches_rerankEmpty_eval :
    findMatches defaultWeights incPlain (fun _ => 0) [(compA, 1)] 5 true [] =
      [⟨"A", "Empresa A", 13/20, [], 1, 0, 1/2, 1⟩] := by
  have hs : sizeRuleFires incPlain compA = false := by decide
  have hc : caeRuleFires incPlain compA = false := by decide
  have hg : geoRuleFires incPlain compA = false := by decide
  have hfil : applyDeterministicFilters incPlain compA = (1, []) := by
    simp [applyDeterministicFilters, hs, hc, hg]
  have hsc : scoreCandidates defaultWeights incPlain (fun _ => 0)
      [(compA, 1)] =
      [⟨compA, 1, 0, 1, [],
        (defaultWeights.vector * 1 + defaultWeights.bm25 * 0) * 1⟩] := by
    simp [scoreCandidates, hfil]
  have hsort : pySortDesc (fun sc => sc.prelimScore)
      (scoreCandidates defaultWeights incPlain (fun _ => 0) [(compA, 1)]) =
      [⟨compA, 1, 0, 1, [],
        (defaultWeights.vector * 1 + defaultWeights.bm25 * 0) * 1⟩] := by
    rw [hsc]
    simp [pySortDesc, List.insertionSort, List.orderedInsert]
  simp only [findMatches, hsort, ite_self]
  have htake : ([⟨compA, 1, 0, 1, [],
      (defaultWeights.vector * 1 + defaultWeights.bm25 * 0) * 1⟩] :
      List ScoredCandidate).take 5 =
      [⟨compA, 1, 0, 1, [],
        (defaultWeights.vector * 1 + defaultWeights.bm25 * 0) * 1⟩] := rfl
  simp only [htake, List.map, pyGet, if_true]
  simp only [pySortDesc, List.insertionSort, List.orderedInsert]
  simp only [MatchResult.mk.injEq, List.cons.injEq, and_true, List.nil_eq]
  norm_num [defaultWeights, compA]

/-- C6, counterexample.  With the default weights, one candidate with vector
similarity 1, BM25 score 0 and penalty 1, and an EMPTY re-rank mapping, the
code computes `(0.50*1 + 0.20*0 + 0.30*0.5) * 1 = 0.65` — the missing-id
default of 0.5 — whereas the claimed renormalization `(0.50/0.70)*1 +
(0.20/0.70)*0 = 5/7` would give a different score. -/
theorem C6_rerank_counterexample :
    findMatches defaultWeights incPlain (fun _ => 0) [(compA, 1)] 5 true [] =
      [⟨"A", "Empresa A", 13/20, [], 1, 0, 1/2, 1⟩] ∧
    ¬ ((13 : ℚ)/20 = (((1/2) / (7/10)) * 1 + ((1/5) / (7/10)) * 0) * 1) :=
  ⟨findMatches_rerankEmpty_eval, by norm_num⟩

/-- C6 (amended): when the re-rank layer returns the empty mapping with
`use_llm = true`, every returned candidate receives the mid-scale default
LLM score 0.5 and its final score is `(w_v*v + w_b*b + w_l*0.5) * penalty`
— the weights are NOT renormalized. -/
theorem C6_rerank_empty_default (w : MatchWeights) (inc : Incentive)
    (bm25 : Company → ℚ) (candidates : List (Company × ℚ)) (topK : ℕ) :
    ∀ r ∈ findMatches w inc bm25 candidates topK true [],
      r.llmScore = 1/2 ∧
      r.score = (w.vector * r.vectorScore + w.bm25 * r.bm25Score +
        w.llm * (1/2)) * r.penalty := by
  intro r hr
  simp only [findMatches, pySortDesc, ite_self] at hr
  have hr2 := (List.perm_insertionSort _ _).mem_iff.mp hr
  rw [List.mem_map] at hr2
  obtain ⟨sc, _, hfr⟩ := hr2
  subst hfr
  exact ⟨rfl, rfl⟩

/-- Witness for C6: the single result of the counterexample run indeed
carries LLM component 0.5 and the non-renormalized score. -/
theorem C6_rerank_empty_default_witness :
    (⟨"A", "Empresa A", 13/20, [], 1, 0, 1/2, 1⟩ : MatchResult).llmScore =
      1/2 ∧
    (⟨"A", "Empresa A", 13/20, [], 1, 0, 1/2, 1⟩ : MatchResult).score =
      (defaultWeights.vector *
        (⟨"A", "Empresa A", 13/20, [], 1, 0, 1/2, 1⟩ : MatchResult).vectorScore
        + defaultWeights.bm25 *
        (⟨"A", "Empresa A", 13/20, [], 1, 0, 1/2, 1⟩ : MatchResult).bm25Score
        + defaultWeights.llm * (1/2)) *
        (⟨"A", "Empresa A", 13/20, [], 1, 0, 1/2, 1⟩ : MatchResult).penalty := by
  have hr : (⟨"A", "Empresa A", 13/20, [], 1, 0, 1/2, 1⟩ : MatchResult) ∈
      findMatches defaultWeights incPlain (fun _ => 0) [(compA, 1)] 5 true
        [] := by
    rw [findMatches_rerankEmpty_eval]
    exact List.mem_singleton.mpr rfl
  exact C6_rerank_empty_default defaultWeights incPlain (fun _ => 0)
    [(compA, 1)] 5 _ hr

/-- C10: the set of companies returned by `find_matches` is exactly the
first `min(top_k, |candidates|)` candidates of the preliminary ranking
`(w_v*v + w_b*b) * penalty`; the re-rank mapping (which receives the top 20)
can only reorder within that prefix. -/
theorem C10_topk_from_prelim (w : MatchWeights) (inc : Incentive)
    (bm25 : Company → ℚ) (candidates : List (Company × ℚ)) (topK : ℕ)
    (useLlm : Bool) (llmScores : List (String × (ℚ × String))) :
    List.Perm
      ((findMatches w inc bm25 candidates topK useLlm llmScores).map
        (fun r => r.companyId))
      (((pySortDesc (fun sc => sc.prelimScore)
          (scoreCandidates w inc bm25 candidates)).take topK).map
        (fun sc => sc.company.companyId)) := by
  simp only [findMatches, pySortDesc]
  refine List.Perm.trans ((List.perm_insertionSort _ _).map _) ?_
  rw [List.map_map]
  exact List.Perm.refl _

/-- C8: the RAG answer generator returns the refusal phrase with confidence
0 on empty retrieval; but with retrieved documents it looks up the key
`content` in the dict the managed client returns, which only has `response`
— so the success branch computing `min(1.2 * mean similarity, 1)` is
unreachable and the call degrades to the generation-error answer with
confidence 0 instead of the claimed 0.96 for a 0.8-similarity source. -/
theorem C8_rag_confidence :
    generateAnswer [] (.ok chatOkRag) = (REFUSAL_PHRASE, 0) ∧
    chatOkRag.response ≠ "" ∧
    generateAnswer [ragDocA] (.ok chatOkRag) = (GENERATION_ERROR, 0) ∧
    min ((4/5 : ℚ) * (6/5)) 1 = 24/25 ∧ (24/25 : ℚ) ≠ 0 := by
  refine ⟨rfl, by decide, rfl, ?_, by norm_num⟩
  have h45 : (4/5 : ℚ) * (6/5) = 24/25 := by norm_num
  rw [h45, min_eq_left (by norm_num)]

end PubIncentives
